import Mathlib

/-!
Shallow embedding of the hailo wrapper detection pipeline
(src/cpp/hailo_inference.cpp and src/cpp/hailo_c_api.cpp).

Float32 values are modelled as exact rationals; the claims under study
concern comparisons, filtering, sorting and greedy suppression, none of
which depend on rounding.  The hardware layer (VDevice / InferModel /
ConfiguredInferModel) is an opaque collaborator; it is modelled as an
oracle record carrying the status of each call and the decoded float
content of the output buffer.
-/

namespace HailoWrapper

/-- Detection result from the object detection model
(struct Detection in hailo_inference.hpp). -/
structure Detection where
  x_min : ℚ
  y_min : ℚ
  x_max : ℚ
  y_max : ℚ
  confidence : ℚ
  class_id : ℤ
deriving DecidableEq, Repr

/-- Input information for the model (struct InputInfo in hailo_inference.hpp;
also hailo_input_info_t in hailo_c_api.h). -/
structure InputInfo where
  width : ℤ
  height : ℤ
  channels : ℤ
  frame_size : ℕ
deriving DecidableEq, Repr

/-- C truncation of a float to int (static_cast<int>), i.e. rounding toward
zero; on a rational this is T-division of numerator by denominator. -/
def truncToInt (q : ℚ) : ℤ :=
  Int.tdiv q.num (q.den : ℤ)

/-- Intersection over Union for NMS (static float iou in
hailo_inference.cpp, lines 122-134). -/
def iou (a b : Detection) : ℚ :=
  let x1 := max a.x_min b.x_min
  let y1 := max a.y_min b.y_min
  let x2 := min a.x_max b.x_max
  let y2 := min a.y_max b.y_max
  let intersection := max 0 (x2 - x1) * max 0 (y2 - y1)
  let area_a := (a.x_max - a.x_min) * (a.y_max - a.y_min)
  let area_b := (b.x_max - b.x_min) * (b.y_max - b.y_min)
  let union_area := area_a + area_b - intersection
  if union_area > 0 then intersection / union_area else 0

/-- Decoding loop of parseDetections (hailo_inference.cpp lines 146-162):
the output buffer is read as an array of floats and grouped in chunks of
exactly 6 = [x_min, y_min, x_max, y_max, confidence, class_id]; trailing
floats that do not fill a chunk are dropped (num_floats / 6 truncates). -/
def decodeRecords : List ℚ → List Detection
  | x0 :: y0 :: x1 :: y1 :: c :: k :: rest =>
      { x_min := x0, y_min := y0, x_max := x1, y_max := y1,
        confidence := c, class_id := truncToInt k } :: decodeRecords rest
  | _ => []

/-- Comparator used for the NMS sort: std::sort with a.confidence >
b.confidence produces a list that is non-increasing in confidence; the
relation below is the corresponding non-strict total order. -/
def confDesc (a b : Detection) : Prop :=
  b.confidence ≤ a.confidence

instance : DecidableRel confDesc := fun a b =>
  inferInstanceAs (Decidable (b.confidence ≤ a.confidence))

instance : IsTotal Detection confDesc :=
  ⟨fun a b => le_total b.confidence a.confidence⟩

instance : IsTrans Detection confDesc :=
  ⟨fun _ _ _ h1 h2 => le_trans h2 h1⟩

/-- The inner suppression test of the NMS loop (hailo_inference.cpp lines
186-188): detection e survives the emission of d unless their class ids
match and their IoU exceeds the NMS threshold. -/
def survives (nms_t : ℚ) (d e : Detection) : Bool :=
  !(d.class_id == e.class_id && decide (iou d e > nms_t))

/-- Greedy NMS loop (hailo_inference.cpp lines 176-191), fuel-indexed so the
recursion is structural: emitting the head and erasing every later
same-class high-IoU entry from the suppressed array is the same as
emitting the head and recursing on the filtered tail.  The fuel only has
to bound the list length; nms below passes exactly the length, so the
fuel-exhausted branch is never reached. -/
def nmsGo (nms_t : ℚ) : ℕ → List Detection → List Detection
  | _, [] => []
  | 0, _ :: _ => []
  | fuel + 1, d :: rest =>
      d :: nmsGo nms_t fuel (rest.filter (fun e => survives nms_t d e))

/-- Greedy class-scoped NMS over a sorted detection list. -/
def nms (nms_t : ℚ) (l : List Detection) : List Detection :=
  nmsGo nms_t l.length l

/-- parseDetections (hailo_inference.cpp lines 136-194): decode the float
buffer into 6-float records, keep records with confidence >= the
confidence threshold, sort by confidence descending, then apply greedy
class-scoped NMS. -/
def parseDetections (conf_t nms_t : ℚ) (output : List ℚ) : List Detection :=
  let detections :=
    (decodeRecords output).filter (fun det => decide (conf_t ≤ det.confidence))
  let sorted := detections.insertionSort confDesc
  nms nms_t sorted

/-- Inference session state (class HailoInference): the geometry and output
size captured at creation, plus the fixed detection parameters
(m_confidence_threshold = 0.5f, m_nms_threshold = 0.45f, never mutated). -/
structure HailoInference where
  input_info : InputInfo
  output_size : ℕ
  confidence_threshold : ℚ := 1 / 2
  nms_threshold : ℚ := 9 / 20
deriving DecidableEq, Repr

/-- Oracle for the opaque hardware layer consulted by one detect() call:
whether each set_buffer call returns HAILO_SUCCESS, the status returned by
ConfiguredInferModel::run, and the float content the run leaves in the
output buffer. -/
structure Hardware where
  set_input_ok : Bool
  set_output_ok : Bool
  run_status : ℤ
  output : List ℚ
deriving DecidableEq, Repr

/-- The HAILO_SUCCESS status code. -/
def HAILO_SUCCESS : ℤ := 0

/-- Failures detect() can raise (the std::runtime_error throws in
hailo_inference.cpp lines 77-102). -/
inductive DetectError where
  | inputSizeMismatch (expected got : ℕ)
  | setInputBufferFailed
  | setOutputBufferFailed
  | inferenceFailed (status : ℤ)
deriving DecidableEq, Repr

/-- The what() message of each throw in HailoInference::detect. -/
def DetectError.message : DetectError → String
  | .inputSizeMismatch expected got =>
      "Input size mismatch: expected " ++ toString expected ++
        ", got " ++ toString got
  | .setInputBufferFailed => "Failed to set input buffer"
  | .setOutputBufferFailed => "Failed to set output buffer"
  | .inferenceFailed status => "Inference failed: " ++ toString status

/-- HailoInference::getInputInfo (hailo_inference.cpp lines 72-74). -/
def HailoInference.getInputInfo (eng : HailoInference) : InputInfo :=
  eng.input_info

/-- HailoInference::detect (hailo_inference.cpp lines 76-106): reject a
wrong-sized input before touching any buffer, then bind input, bind
output, run, and parse; each hardware step can fail with its throw. -/
def HailoInference.detect (eng : HailoInference) (input_size : ℕ)
    (hw : Hardware) : Except DetectError (List Detection) :=
  if input_size ≠ eng.input_info.frame_size then
    .error (.inputSizeMismatch eng.input_info.frame_size input_size)
  else if !hw.set_input_ok then
    .error .setInputBufferFailed
  else if !hw.set_output_ok then
    .error .setOutputBufferFailed
  else if hw.run_status ≠ HAILO_SUCCESS then
    .error (.inferenceFailed hw.run_status)
  else
    .ok (parseDetections eng.confidence_threshold eng.nms_threshold hw.output)

/-- HailoInference::detectPeople (hailo_inference.cpp lines 108-119): run
detect, then count results with class_id == 0 and confidence >= the
confidence threshold; any detect failure propagates. -/
def HailoInference.detectPeople (eng : HailoInference) (input_size : ℕ)
    (hw : Hardware) : Except DetectError ℤ :=
  match eng.detect input_size hw with
  | .error e => .error e
  | .ok detections =>
      .ok ((detections.countP (fun det =>
        det.class_id == 0 && decide (eng.confidence_threshold ≤ det.confidence)) : ℕ) : ℤ)

/-- Thread-confined error slot of the C boundary (the thread_local
g_last_error string in hailo_c_api.cpp). -/
structure ThreadState where
  last_error : String
deriving DecidableEq, Repr

/-- set_error (hailo_c_api.cpp lines 10-12). -/
def setError (msg : String) (_st : ThreadState) : ThreadState :=
  { last_error := msg }

/-- hailo_get_last_error (hailo_c_api.cpp lines 33-35). -/
def hailo_get_last_error (st : ThreadState) : String :=
  st.last_error

/-- hailo_get_input_info (hailo_c_api.cpp lines 37-53): a null handle
records "Invalid handle" and yields the all-zero struct; otherwise the
geometry of the session is copied out field by field. -/
def hailo_get_input_info (h : Option HailoInference) (st : ThreadState) :
    InputInfo × ThreadState :=
  match h with
  | none => (⟨0, 0, 0, 0⟩, setError "Invalid handle" st)
  | some eng => (eng.getInputInfo, st)

/-- hailo_detect_people (hailo_c_api.cpp lines 55-70): -1 plus an error
message on a null handle or on any caught exception, the people count
otherwise. -/
def hailo_detect_people (h : Option HailoInference) (input_size : ℕ)
    (hw : Hardware) (st : ThreadState) : ℤ × ThreadState :=
  match h with
  | none => (-1, setError "Invalid handle" st)
  | some eng =>
      match eng.detectPeople input_size hw with
      | .error e => (-1, setError e.message st)
      | .ok n => (n, st)

/-- hailo_detect (hailo_c_api.cpp lines 72-104): -1 plus an error message
on a null handle or caught exception; otherwise copy detections into the
caller array until either the list ends or count reaches max_detections
(a non-positive capacity breaks immediately), and return the count
written.  The list component is the sequence of records written. -/
def hailo_detect (h : Option HailoInference) (input_size : ℕ)
    (hw : Hardware) (max_detections : ℤ) (st : ThreadState) :
    ℤ × List Detection × ThreadState :=
  match h with
  | none => (-1, [], setError "Invalid handle" st)
  | some eng =>
      match eng.detect input_size hw with
      | .error e => (-1, [], setError e.message st)
      | .ok dets =>
          let written := dets.take max_detections.toNat
          ((written.length : ℤ), written, st)

/-- Encoding of one detection record as its 6-float chunk; used to build
raw output buffers that decode to prescribed records. -/
def encodeDetection (d : Detection) : List ℚ :=
  [d.x_min, d.y_min, d.x_max, d.y_max, d.confidence, (d.class_id : ℚ)]

/-! ### Helper lemmas -/

theorem truncToInt_intCast (c : ℤ) : truncToInt (c : ℚ) = c := by
  simp [truncToInt, Rat.num_intCast, Rat.den_intCast]

theorem iou_comm (a b : Detection) : iou a b = iou b a := by
  simp only [iou]
  rw [max_comm b.x_min, max_comm b.y_min, min_comm b.x_max, min_comm b.y_max,
    add_comm ((b.x_max - b.x_min) * (b.y_max - b.y_min))]

theorem decodeRecords_encode (d : Detection) (rest : List ℚ) :
    decodeRecords (encodeDetection d ++ rest) = d :: decodeRecords rest := by
  simp [encodeDetection, decodeRecords, truncToInt_intCast]

theorem nmsGo_sublist (t : ℚ) : ∀ (fuel : ℕ) (l : List Detection),
    List.Sublist (nmsGo t fuel l) l
  | _, [] => by simp [nmsGo]
  | 0, _ :: _ => by simp [nmsGo]
  | fuel + 1, d :: rest => by
    rw [nmsGo]
    exact List.Sublist.cons₂ d
      ((nmsGo_sublist t fuel _).trans (List.filter_sublist rest))

theorem nmsGo_pairwise (t : ℚ) : ∀ (fuel : ℕ) (l : List Detection),
    (nmsGo t fuel l).Pairwise (fun a b => a.class_id = b.class_id → iou a b ≤ t)
  | _, [] => by simp [nmsGo]
  | 0, _ :: _ => by simp [nmsGo]
  | fuel + 1, d :: rest => by
    rw [nmsGo]
    refine List.pairwise_cons.mpr ⟨fun b hb hcls => ?_, nmsGo_pairwise t fuel _⟩
    have hb2 : b ∈ rest.filter (fun e => survives t d e) :=
      (nmsGo_sublist t fuel _).subset hb
    have hs : survives t d b = true := (List.mem_filter.mp hb2).2
    simp only [survives, hcls, beq_self_eq_true, Bool.true_and,
      Bool.not_eq_true', decide_eq_false_iff_not, not_lt] at hs
    exact hs

theorem parseDetections_pairwise (c t : ℚ) (out : List ℚ) :
    (parseDetections c t out).Pairwise
      (fun a b => a.class_id = b.class_id → iou a b ≤ t) := by
  simp only [parseDetections, nms]
  exact nmsGo_pairwise t _ _

theorem parseDetections_sorted (c t : ℚ) (out : List ℚ) :
    (parseDetections c t out).Sorted confDesc := by
  simp only [parseDetections, nms]
  exact List.Pairwise.sublist (nmsGo_sublist t _ _)
    (List.sorted_insertionSort confDesc _)

theorem mem_parseDetections_conf {c t : ℚ} {out : List ℚ} {d : Detection}
    (hd : d ∈ parseDetections c t out) : c ≤ d.confidence := by
  simp only [parseDetections, nms] at hd
  have h1 := (nmsGo_sublist t _ _).subset hd
  rw [List.mem_insertionSort] at h1
  exact of_decide_eq_true (List.mem_filter.mp h1).2

theorem detect_ok_eq {eng : HailoInference} {input_size : ℕ} {hw : Hardware}
    {dets : List Detection} (h : eng.detect input_size hw = .ok dets) :
    dets = parseDetections eng.confidence_threshold eng.nms_threshold hw.output := by
  unfold HailoInference.detect at h
  split_ifs at h; simp_all

theorem parseDetections_two_diff_class (c t : ℚ) (d1 d2 : Detection)
    (h1 : c ≤ d1.confidence) (h2 : c ≤ d2.confidence)
    (hcls : d1.class_id ≠ d2.class_id) :
    parseDetections c t (encodeDetection d1 ++ encodeDetection d2) = [d1, d2] ∨
    parseDetections c t (encodeDetection d1 ++ encodeDetection d2) = [d2, d1] := by
  have hb1 : (d1.class_id == d2.class_id) = false := by
    simp [hcls]
  have hb2 : (d2.class_id == d1.class_id) = false := by
    simp [Ne.symm hcls]
  have hdec : decodeRecords (encodeDetection d1 ++ encodeDetection d2) = [d1, d2] := by
    simp [encodeDetection, decodeRecords, truncToInt_intCast]
  simp only [parseDetections, hdec, List.filter_cons, List.filter_nil,
    decide_eq_true_eq, h1, h2, if_pos]
  by_cases hc : confDesc d1 d2
  · left
    simp [List.insertionSort, List.orderedInsert, hc, nms, nmsGo,
      List.filter, survives, hb1]
  · right
    simp [List.insertionSort, List.orderedInsert, hc, nms, nmsGo,
      List.filter, survives, hb2]

/-! ### Claim theorems -/

/-- C1: for every raw output buffer, any two distinct detections a and b in
the sequence returned by detect() with equal class_id satisfy
IoU(a, b) <= 0.45, the NMS threshold (IoU being the axis-aligned
intersection-over-union that is 0 when the union area is <= 0). -/
theorem detect_nms_class_scoping (eng : HailoInference) (input_size : ℕ)
    (hw : Hardware) (dets : List Detection)
    (hok : eng.detect input_size hw = .ok dets)
    (hthr : eng.nms_threshold = 9 / 20)
    (i j : ℕ) (hi : i < dets.length) (hj : j < dets.length) (hij : i ≠ j)
    (hcls : (dets.get ⟨i, hi⟩).class_id = (dets.get ⟨j, hj⟩).class_id) :
    iou (dets.get ⟨i, hi⟩) (dets.get ⟨j, hj⟩) ≤ 9 / 20 := by
  have hp := parseDetections_pairwise eng.confidence_threshold
    eng.nms_threshold hw.output
  rw [← detect_ok_eq hok] at hp
  rw [← hthr]
  rcases lt_or_gt_of_ne hij with hlt | hgt
  · exact List.pairwise_iff_get.mp hp ⟨i, hi⟩ ⟨j, hj⟩ hlt hcls
  · rw [iou_comm]
    exact List.pairwise_iff_get.mp hp ⟨j, hj⟩ ⟨i, hi⟩ hgt hcls.symm

/-- C2: every Detection returned by a successful detect() call has
confidence >= 0.5, the confidence threshold, and consequently a decoded
record with confidence < 0.5 never appears in the final output. -/
theorem detect_confidence_filter (eng : HailoInference) (input_size : ℕ)
    (hw : Hardware) (dets : List Detection)
    (hok : eng.detect input_size hw = .ok dets)
    (hthr : eng.confidence_threshold = 1 / 2) :
    (∀ d ∈ dets, 1 / 2 ≤ d.confidence) ∧
    (∀ d : Detection, d.confidence < 1 / 2 → d ∉ dets) := by
  have hmem : ∀ d ∈ dets, (1 : ℚ) / 2 ≤ d.confidence := by
    intro d hd
    rw [detect_ok_eq hok] at hd
    have := mem_parseDetections_conf hd
    rwa [hthr] at this
  exact ⟨hmem, fun d hlt hd => absurd (hmem d hd) (not_le.mpr hlt)⟩

/-- C3: an input whose length differs from the frame size makes detect()
fail with the input-size error and no detections, and the outcome is
independent of anything the hardware layer would do — no buffer is bound
and no inference is run, so the session is untouched and stays usable. -/
theorem detect_input_size_gate (eng : HailoInference) (input_size : ℕ)
    (hw hw2 : Hardware)
    (hsz : input_size ≠ eng.input_info.frame_size) :
    eng.detect input_size hw =
      .error (.inputSizeMismatch eng.input_info.frame_size input_size) ∧
    eng.detect input_size hw = eng.detect input_size hw2 := by
  constructor
  · simp [HailoInference.detect, hsz]
  · simp [HailoInference.detect, hsz]

/-- C4: whenever detect() succeeds, detectPeople() on the same input
returns exactly the number of detections in the detect() result whose
class_id is 0; the extra confidence comparison in the wrapper never
changes the count because every detect() result already has
confidence >= the threshold. -/
theorem detectPeople_counts_class_zero (eng : HailoInference)
    (input_size : ℕ) (hw : Hardware) (dets : List Detection)
    (hok : eng.detect input_size hw = .ok dets) :
    eng.detectPeople input_size hw =
      .ok ((dets.countP (fun det => det.class_id == 0) : ℕ) : ℤ) := by
  unfold HailoInference.detectPeople
  rw [hok]
  have hc : dets.countP (fun det => det.class_id == 0 &&
        decide (eng.confidence_threshold ≤ det.confidence)) =
      dets.countP (fun det => det.class_id == 0) := by
    apply List.countP_congr
    intro d hd
    have hconf : eng.confidence_threshold ≤ d.confidence := by
      rw [detect_ok_eq hok] at hd
      exact mem_parseDetections_conf hd
    simp [hconf]
  dsimp only
  rw [hc]

/-- C5: the sequence returned by detect() is ordered by non-increasing
confidence, and it is exactly the greedy NMS emission over the
confidence-descending sorted filtered record list; being a pure function
of the decoded record sequence, the output is deterministic for a fixed
input order. -/
theorem detect_output_order (eng : HailoInference) (input_size : ℕ)
    (hw : Hardware) (dets : List Detection)
    (hok : eng.detect input_size hw = .ok dets) :
    dets.Sorted confDesc ∧
    dets = nms eng.nms_threshold
      (((decodeRecords hw.output).filter
          (fun det => decide (eng.confidence_threshold ≤ det.confidence))).insertionSort
        confDesc) := by
  have he := detect_ok_eq hok
  constructor
  · rw [he]
    exact parseDetections_sorted _ _ _
  · rw [he]
    rfl

/-- C6: for a successful boundary detect() call with m NMS survivors and
capacity k >= 0, the call returns min(m, k), writes exactly the first
min(m, k) survivors into the caller array in confidence-descending order,
and reports no error (the thread state is untouched); survivors beyond k
are silently dropped. -/
theorem hailo_detect_capacity_truncation (eng : HailoInference)
    (input_size : ℕ) (hw : Hardware) (k : ℤ) (st : ThreadState)
    (dets : List Detection)
    (hok : eng.detect input_size hw = .ok dets) (hk : 0 ≤ k) :
    hailo_detect (some eng) input_size hw k st =
      (min (dets.length : ℤ) k, dets.take k.toNat, st) ∧
    (dets.take k.toNat).Sorted confDesc := by
  constructor
  · unfold hailo_detect
    dsimp only
    rw [hok]
    have hlen : ((dets.take k.toNat).length : ℤ) = min (dets.length : ℤ) k := by
      rw [List.length_take, Nat.cast_min, Int.toNat_of_nonneg hk, min_comm]
    dsimp only
    rw [hlen]
  · have hs : dets.Sorted confDesc := by
      rw [detect_ok_eq hok]
      exact parseDetections_sorted _ _ _
    exact List.Pairwise.sublist (List.take_sublist _ _) hs

/-- C7: NMS never suppresses across classes — when the output buffer
decodes to exactly two records, each with confidence at or above the
threshold and with different class ids, both records appear in the
result of detect(), whatever their IoU is (maximal overlap included). -/
theorem detect_cross_class_pass_through (eng : HailoInference)
    (input_size : ℕ) (hw : Hardware) (dets : List Detection)
    (d1 d2 : Detection)
    (hok : eng.detect input_size hw = .ok dets)
    (hout : hw.output = encodeDetection d1 ++ encodeDetection d2)
    (hthr : eng.confidence_threshold = 1 / 2)
    (h1 : 1 / 2 ≤ d1.confidence) (h2 : 1 / 2 ≤ d2.confidence)
    (hcls : d1.class_id ≠ d2.class_id) :
    d1 ∈ dets ∧ d2 ∈ dets := by
  have he := detect_ok_eq hok
  rw [hout, hthr] at he
  rcases parseDetections_two_diff_class (1 / 2) eng.nms_threshold d1 d2 h1 h2
    hcls with h | h
  · rw [he, h]
    simp
  · rw [he, h]
    simp

/-- C8: on the raw buffer decoding to the records
(0,0,10,10,0.9,0), (1,1,9,9,0.8,0), (50,50,60,60,0.7,1), with confidence
threshold 0.5 and NMS threshold 0.45, post-processing returns exactly the
first and third record in that order: the second is suppressed because
its IoU with the first is 0.64 > 0.45. -/
theorem parseDetections_deterministic_example :
    parseDetections (1 / 2) (9 / 20)
        [0, 0, 10, 10, 9 / 10, 0, 1, 1, 9, 9, 4 / 5, 0,
          50, 50, 60, 60, 7 / 10, 1] =
      [⟨0, 0, 10, 10, 9 / 10, 0⟩, ⟨50, 50, 60, 60, 7 / 10, 1⟩] ∧
    iou ⟨0, 0, 10, 10, 9 / 10, 0⟩ ⟨1, 1, 9, 9, 4 / 5, 0⟩ = 16 / 25 := by
  constructor
  · norm_num [parseDetections, decodeRecords, truncToInt, List.insertionSort,
      List.orderedInsert, confDesc, nms, nmsGo, survives, iou, List.filter]
  · norm_num [iou]

/-- C9: every boundary operation given a null handle records the
"Invalid handle" message on the calling thread and returns its sentinel
without consulting any session: getInputInfo yields the all-zero struct,
and both detect-people and detect yield -1. -/
theorem null_handle_sentinels (st : ThreadState) (input_size : ℕ)
    (hw : Hardware) (k : ℤ) :
    hailo_get_input_info none st =
      (⟨0, 0, 0, 0⟩, ⟨"Invalid handle"⟩) ∧
    hailo_detect_people none input_size hw st = (-1, ⟨"Invalid handle"⟩) ∧
    hailo_detect none input_size hw k st = (-1, [], ⟨"Invalid handle"⟩) :=
  ⟨rfl, rfl, rfl⟩

/-- C10: boundary detect() with a valid handle, a capacity <= 0 (negatives
included) and a successful underlying inference writes nothing, returns 0
rather than the -1 sentinel, and leaves the thread error slot unchanged. -/
theorem hailo_detect_nonpositive_capacity (eng : HailoInference)
    (input_size : ℕ) (hw : Hardware) (k : ℤ) (st : ThreadState)
    (dets : List Detection)
    (hok : eng.detect input_size hw = .ok dets) (hk : k ≤ 0) :
    hailo_detect (some eng) input_size hw k st = (0, [], st) := by
  unfold hailo_detect
  dsimp only
  rw [hok]
  simp [Int.toNat_of_nonpos hk]

/-! ### Concrete fixtures for the witnesses -/

/-- Session fixture: geometry as captured from a model whose input frame is
8 bytes; thresholds are the fixed defaults 0.5 and 0.45. -/
def sampleEngine : HailoInference :=
  { input_info := { width := 640, height := 640, channels := 3, frame_size := 8 },
    output_size := 72 }

/-- Hardware fixture: a successful run whose output decodes to two
far-apart class-0 boxes and one class-1 box, all above threshold. -/
def sampleHw : Hardware :=
  { set_input_ok := true, set_output_ok := true, run_status := 0,
    output := [0, 0, 10, 10, 9 / 10, 0, 50, 50, 60, 60, 4 / 5, 0,
      0, 0, 10, 10, 7 / 10, 1] }

/-- The detection list sampleEngine.detect produces on sampleHw. -/
def sampleDets : List Detection :=
  [⟨0, 0, 10, 10, 9 / 10, 0⟩, ⟨50, 50, 60, 60, 4 / 5, 0⟩,
    ⟨0, 0, 10, 10, 7 / 10, 1⟩]

theorem sampleDetect_eval : sampleEngine.detect 8 sampleHw = .ok sampleDets := by
  norm_num [sampleEngine, sampleHw, sampleDets, HailoInference.detect,
    HAILO_SUCCESS, parseDetections, decodeRecords, truncToInt,
    List.insertionSort, List.orderedInsert, confDesc, nms, nmsGo, survives,
    iou, List.filter]

/-- Hardware fixture for the cross-class case: two identical boxes with
different class ids. -/
def crossHw : Hardware :=
  { set_input_ok := true, set_output_ok := true, run_status := 0,
    output := encodeDetection ⟨0, 0, 10, 10, 9 / 10, 0⟩ ++
      encodeDetection ⟨0, 0, 10, 10, 4 / 5, 1⟩ }

theorem crossDetect_eval : sampleEngine.detect 8 crossHw =
    .ok [⟨0, 0, 10, 10, 9 / 10, 0⟩, ⟨0, 0, 10, 10, 4 / 5, 1⟩] := by
  norm_num [sampleEngine, crossHw, encodeDetection, HailoInference.detect,
    HAILO_SUCCESS, parseDetections, decodeRecords, truncToInt_intCast,
    truncToInt, List.insertionSort, List.orderedInsert, confDesc, nms,
    nmsGo, survives, iou, List.filter]

/-! ### Witnesses -/

/-- Witness for C1: on the sample run, the class-0 detections at positions
0 and 1 of the output have IoU 0 ≤ 9/20. -/
theorem detect_nms_class_scoping_witness :
    iou ⟨0, 0, 10, 10, 9 / 10, 0⟩ ⟨50, 50, 60, 60, 4 / 5, 0⟩ ≤ 9 / 20 :=
  detect_nms_class_scoping sampleEngine 8 sampleHw sampleDets
    sampleDetect_eval rfl 0 1 (by decide) (by decide) (by decide) rfl

/-- Witness for C2 on the sample run. -/
theorem detect_confidence_filter_witness :
    sampleEngine.detect 8 sampleHw = .ok sampleDets ∧
    ((∀ d ∈ sampleDets, 1 / 2 ≤ d.confidence) ∧
     (∀ d : Detection, d.confidence < 1 / 2 → d ∉ sampleDets)) :=
  ⟨sampleDetect_eval,
    detect_confidence_filter sampleEngine 8 sampleHw sampleDets
      sampleDetect_eval rfl⟩

/-- Witness for C3: input length 7 differs from the frame size 8. -/
theorem detect_input_size_gate_witness :
    (7 : ℕ) ≠ sampleEngine.input_info.frame_size ∧
    (sampleEngine.detect 7 sampleHw =
        .error (.inputSizeMismatch sampleEngine.input_info.frame_size 7) ∧
      sampleEngine.detect 7 sampleHw =
        sampleEngine.detect 7 ⟨false, false, 3, []⟩) :=
  ⟨by decide,
    detect_input_size_gate sampleEngine 7 sampleHw ⟨false, false, 3, []⟩
      (by decide)⟩

/-- Witness for C4: the sample run has two class-0 detections. -/
theorem detectPeople_counts_class_zero_witness :
    sampleEngine.detectPeople 8 sampleHw = .ok 2 :=
  detectPeople_counts_class_zero sampleEngine 8 sampleHw sampleDets
    sampleDetect_eval

/-- Witness for C5 on the sample run. -/
theorem detect_output_order_witness :
    sampleDets.Sorted confDesc ∧
    sampleDets = nms sampleEngine.nms_threshold
      (((decodeRecords sampleHw.output).filter
          (fun det => decide
            (sampleEngine.confidence_threshold ≤ det.confidence))).insertionSort
        confDesc) :=
  detect_output_order sampleEngine 8 sampleHw sampleDets sampleDetect_eval

/-- Witness for C6: capacity 2 against 3 survivors returns 2 and writes the
first two survivors. -/
theorem hailo_detect_capacity_truncation_witness :
    hailo_detect (some sampleEngine) 8 sampleHw 2 ⟨""⟩ =
      (min (sampleDets.length : ℤ) 2, sampleDets.take (2 : ℤ).toNat, ⟨""⟩) ∧
    (sampleDets.take (2 : ℤ).toNat).Sorted confDesc :=
  hailo_detect_capacity_truncation sampleEngine 8 sampleHw 2 ⟨""⟩ sampleDets
    sampleDetect_eval (by decide)

/-- Witness for C7: two maximal-overlap boxes of different classes are both
in the output. -/
theorem detect_cross_class_pass_through_witness :
    (⟨0, 0, 10, 10, 9 / 10, 0⟩ : Detection) ∈
      ([⟨0, 0, 10, 10, 9 / 10, 0⟩, ⟨0, 0, 10, 10, 4 / 5, 1⟩] : List Detection) ∧
    (⟨0, 0, 10, 10, 4 / 5, 1⟩ : Detection) ∈
      ([⟨0, 0, 10, 10, 9 / 10, 0⟩, ⟨0, 0, 10, 10, 4 / 5, 1⟩] : List Detection) :=
  detect_cross_class_pass_through sampleEngine 8 crossHw
    [⟨0, 0, 10, 10, 9 / 10, 0⟩, ⟨0, 0, 10, 10, 4 / 5, 1⟩]
    ⟨0, 0, 10, 10, 9 / 10, 0⟩ ⟨0, 0, 10, 10, 4 / 5, 1⟩
    crossDetect_eval rfl rfl (by norm_num) (by norm_num) (by decide)

/-- Witness for C10: capacity -1 with a successful inference returns 0 and
leaves the thread error slot alone. -/
theorem hailo_detect_nonpositive_capacity_witness :
    hailo_detect (some sampleEngine) 8 sampleHw (-1) ⟨"prior"⟩ =
      (0, [], ⟨"prior"⟩) :=
  hailo_detect_nonpositive_capacity sampleEngine 8 sampleHw (-1) ⟨"prior"⟩
    sampleDets sampleDetect_eval (by decide)

end HailoWrapper
